import Mathlib

/-!
Verification of the RPC client correlation core (src/net/rpcclient.go).

The Go code is embedded shallowly: the client's mutable state becomes an
explicit `ClientState`, Go channels become a small `ChanState` automaton,
the int64 sequence counter is an `Int` with explicit two's-complement
wrapping, and each phase of a call (the locked registration phase, the
channel wait, the deferred cleanup) becomes a pure function on
`ClientState`.  Blocking points are modelled by `Option` (`none` means the
operation would block or panic) and by outcome parameters standing for
which arm of a Go `select` fired.
-/

namespace Kiss

/-- Wire bytes: each entry stands for one byte value. -/
abbrev Bytes := List Nat

/-- Two's-complement wrap of a mathematical integer into int64 range,
modelling the overflow behaviour of Go's `atomic.AddInt64`. -/
def wrap64 (x : Int) : Int := (x + 2 ^ 63) % 2 ^ 64 - 2 ^ 63

/-- Modelled from the spec: the inbound message interface `IMessage`
(`Cmd()`, `RpcSeq()`, `Body()`) is declared outside src/; the spec gives
the frame shape as command code, correlation sequence number, and body. -/
structure IMessage where
  cmd : Nat
  rpcSeq : Int
  body : Bytes
deriving DecidableEq, Repr

/-- Modelled from the spec: `NewRpcMessage` lives outside src/; the spec
gives the outbound frame as `\x7bcmd, correlationID, payload\x7d`. -/
structure Frame where
  cmd : Nat
  seq : Int
  body : Bytes
deriving DecidableEq, Repr

def NewRpcMessage (cmd : Nat) (seq : Int) (data : Bytes) : Frame :=
  { cmd := cmd, seq := seq, body := data }

/-- The error values surfaced by the client: `ErrRpcClientIsDisconnected`,
`ErrRpcCallTimeout`, `ErrRpcCallClientError`, and the remote error built by
`errors.New(string(msg.Body()))`. -/
inductive RpcErr where
  | disconnected
  | timeout
  | clientError
  | remote (msg : Bytes)
deriving DecidableEq, Repr

/-- Go struct `RpcMessage \x7b msg IMessage; err error \x7d`. -/
structure RpcMessage where
  msg : IMessage
  err : Option RpcErr
deriving DecidableEq, Repr

/-- State of a capacity-1 buffered channel `chan *RpcMessage`. -/
inductive ChanState where
  | empty
  | holding (m : RpcMessage)
  | closed
deriving DecidableEq, Repr

/-- Sending on a capacity-1 channel: succeeds immediately when the buffer
is free; `none` models blocking on a full buffer or the panic of sending
on a closed channel. -/
def chanSend (c : ChanState) (m : RpcMessage) : Option ChanState :=
  match c with
  | .empty => some (.holding m)
  | .holding _ => none
  | .closed => none

/-- Receiving from the channel: `none` models blocking on an empty open
channel; a closed channel yields `(none, closed)`, the Go
`msg, ok := <-ch` shape with `ok = false`. -/
def chanRecv (c : ChanState) : Option (Option RpcMessage × ChanState) :=
  match c with
  | .empty => none
  | .holding m => some (some m, .empty)
  | .closed => some (none, .closed)

/-- The client state guarded by the `RpcClient` mutex, plus the model heap
`chans` of every result channel ever registered (Go keeps a channel alive
through the caller's `session` pointer even after it leaves the map). -/
structure ClientState where
  running : Bool
  sendSeq : Int
  sessionMap : List Int
  chans : List (Int × ChanState)
  chSend : List Frame
deriving DecidableEq, Repr

/-- First-match association-list lookup for the channel heap. -/
def lookupChan : List (Int × ChanState) → Int → Option ChanState
  | [], _ => none
  | e :: rest, k => if e.1 = k then some e.2 else lookupChan rest k

/-- Replace the channel stored under key `k`. -/
def setChan (l : List (Int × ChanState)) (k : Int) (c : ChanState) :
    List (Int × ChanState) :=
  l.map (fun e => if e.1 = k then (k, c) else e)

/-- Go `removeSession`: delete the key, and when the map became empty
replace it with a fresh empty map (a literal rendering of the
`len(client.sessionMap) == 0` branch). -/
def removeSession (st : ClientState) (seq : Int) : ClientState :=
  let m1 := st.sessionMap.filter (fun k => k != seq)
  let m2 := if m1.length = 0 then ([] : List Int) else m1
  { st with sessionMap := m2 }

/-- The locked registration phase of `callCmd` (lines 43-56): check
`running`, allocate the next sequence number by atomic increment, hand the
frame to `chSend`, insert the session.  Returns the allocated sequence
number, or `none` for the `ErrRpcClientIsDisconnected` early return. -/
def callCmdRegister (st : ClientState) (cmd : Nat) (data : Bytes) :
    ClientState × Option Int :=
  if st.running then
    let seq := wrap64 (st.sendSeq + 1)
    let fr := NewRpcMessage cmd seq data
    ({ st with
        sendSeq := seq
        chSend := st.chSend ++ [fr]
        sessionMap := st.sessionMap ++ [seq]
        chans := st.chans ++ [(seq, .empty)] },
     some seq)
  else (st, none)

/-- Which arm of the send-side `select` in `callCmdWithTimeout` fired:
the hand-off to `chSend` was accepted, or `time.After(timeout)` fired
first. -/
inductive SendOutcome where
  | accepted
  | timedOut
deriving DecidableEq, Repr

/-- Result of the locked registration phase of `callCmdWithTimeout`. -/
inductive RegResult where
  | registered (seq : Int)
  | errDisconnected
  | errTimeout
deriving DecidableEq, Repr

/-- The locked registration phase of `callCmdWithTimeout` (lines 68-85).
The sequence number is allocated before the `select`, so it is consumed
even on the timeout arm; the session and the frame are recorded only on
the accepted arm. -/
def callCmdWithTimeoutRegister (st : ClientState) (cmd : Nat) (data : Bytes)
    (so : SendOutcome) : ClientState × RegResult :=
  if st.running then
    let seq := wrap64 (st.sendSeq + 1)
    let fr := NewRpcMessage cmd seq data
    match so with
    | .accepted =>
        ({ st with
            sendSeq := seq
            chSend := st.chSend ++ [fr]
            sessionMap := st.sessionMap ++ [seq]
            chans := st.chans ++ [(seq, .empty)] },
         .registered seq)
    | .timedOut => ({ st with sendSeq := seq }, .errTimeout)
  else (st, .errDisconnected)

/-- The wait phase of `callCmd` (lines 57-62): block on `session.done`,
then run the deferred `removeSession`.  `none` models a still-blocked
receive (the channel is empty) or a dangling key.  A closed channel yields
`ErrRpcClientIsDisconnected`; a delivered message yields
`(msg.msg.Body(), msg.err)`. -/
def callCmdAwait (st : ClientState) (seq : Int) :
    Option (ClientState × (Option Bytes × Option RpcErr)) :=
  match lookupChan st.chans seq with
  | none => none
  | some c =>
    match chanRecv c with
    | none => none
    | some (none, c2) =>
        some (removeSession { st with chans := setChan st.chans seq c2 } seq,
              (none, some .disconnected))
    | some (some m, c2) =>
        some (removeSession { st with chans := setChan st.chans seq c2 } seq,
              (some m.msg.body, m.err))

/-- Which arm of the wait-side `select` in `callCmdWithTimeout` fired:
the channel became receivable, or `time.After(timeout)` fired first. -/
inductive WaitOutcome where
  | ready
  | timer
deriving DecidableEq, Repr

/-- The wait phase of `callCmdWithTimeout` (lines 87-98): race the channel
against the timer; the deferred `removeSession` runs on both arms. -/
def callCmdWithTimeoutAwait (st : ClientState) (seq : Int) (wo : WaitOutcome) :
    Option (ClientState × (Option Bytes × Option RpcErr)) :=
  match wo with
  | .ready => callCmdAwait st seq
  | .timer => some (removeSession st seq, (none, some .timeout))

/-- `callCmd` as a whole, with no interference between its phases. -/
def callCmdFull (st : ClientState) (cmd : Nat) (data : Bytes) :
    Option (ClientState × (Option Bytes × Option RpcErr)) :=
  match callCmdRegister st cmd data with
  | (st1, none) => some (st1, (none, some .disconnected))
  | (st1, some seq) => callCmdAwait st1 seq

/-- `callCmdWithTimeout` as a whole, with no interference between its
phases.  The final `return nil, ErrRpcCallClientError` of the Go source
sits after a `select` both of whose arms return, so no branch of this
model produces `RpcErr.clientError`. -/
def callCmdWithTimeoutFull (st : ClientState) (cmd : Nat) (data : Bytes)
    (so : SendOutcome) (wo : WaitOutcome) :
    Option (ClientState × (Option Bytes × Option RpcErr)) :=
  match callCmdWithTimeoutRegister st cmd data so with
  | (st1, .errDisconnected) => some (st1, (none, some .disconnected))
  | (st1, .errTimeout) => some (st1, (none, some .timeout))
  | (st1, .registered seq) => callCmdWithTimeoutAwait st1 seq wo

/-- Modelled from the spec: the reserved command codes (`CmdPing`,
`CmdRpcMethod`, `CmdRpcError`) are constants declared outside src/; only
their distinctness matters to the router, so they are given symbolic
distinct values here. -/
def CmdPing : Nat := 0

def CmdRpcMethod : Nat := 1

def CmdRpcError : Nat := 2

/-- Deliver an envelope on the result channel found under `seq` in the
channel heap; `none` when there is no such channel or the send would
block or panic. -/
def deliverToSession (st : ClientState) (seq : Int) (m : RpcMessage) :
    Option ClientState :=
  match lookupChan st.chans seq with
  | none => none
  | some c =>
    match chanSend c m with
    | none => none
    | some c2 => some { st with chans := setChan st.chans seq c2 }

/-- The router installed by `HandleOnMessage` (lines 186-217): ping is a
no-op; RPC success and RPC error codes look the correlation ID up in the
session table and, when found, deliver on its channel; an unknown ID is
logged and dropped; any other code goes to the external handler registry,
which leaves the client state untouched. -/
def handleOnMessage (st : ClientState) (msg : IMessage) : Option ClientState :=
  if msg.cmd = CmdPing then some st
  else if msg.cmd = CmdRpcMethod then
    if msg.rpcSeq ∈ st.sessionMap then
      deliverToSession st msg.rpcSeq { msg := msg, err := none }
    else some st
  else if msg.cmd = CmdRpcError then
    if msg.rpcSeq ∈ st.sessionMap then
      deliverToSession st msg.rpcSeq
        { msg := msg, err := some (.remote msg.body) }
    else some st
  else some st

/-- Go `close` on a capacity-1 channel: a buffered value survives the
close and is still received (with `ok = true`) by the channel's single
one-shot reader, and sends keep failing, so for that reader a
closed-with-buffered-value channel is observationally the `holding`
state and the model keeps the envelope; an empty channel becomes
`closed` (receives now yield `ok = false`). -/
def closeChan (c : ChanState) : ChanState :=
  match c with
  | .empty => .closed
  | .holding m => .holding m
  | .closed => .closed

/-- The `OnClose` handler (lines 177-184) closes every pending session's
channel and resets the map.  Modelled from the spec: the running flag is
cleared by the `TcpClient` close path, which lives outside src/; the spec
states that close sets `running = false` under the same lock. -/
def onCloseHandler (st : ClientState) : ClientState :=
  { st with
      running := false
      chans := st.chans.map
        (fun e => if e.1 ∈ st.sessionMap then (e.1, closeChan e.2) else e)
      sessionMap := [] }

/-- Go `copy(dst, src)` starting at index 0 of `dst`: copies
`min |dst| |src|` bytes and keeps the length of `dst`. -/
def listCopy (dst src : List Nat) : List Nat :=
  src.take dst.length ++ dst.drop src.length

/-- The payload construction of `Call` (lines 143-145):
`data = append(data, make([]byte, len(method)+1)...)`, then
`copy(data[len(data)-len(method)-1:], method)`, then
`data[len(data)-1] = byte(len(method))` (`byte` truncates mod 256). -/
def buildCallPayload (data method : Bytes) : Bytes :=
  let d1 := data ++ List.replicate (method.length + 1) 0
  let off := d1.length - method.length - 1
  let d2 := d1.take off ++ listCopy (d1.drop off) method
  d2.set (d2.length - 1) (method.length % 256)

/-- `Call` (lines 138-154) with the codec abstracted away: dispatch the
built payload under the reserved `CmdRpcMethod` code through
`callCmdWithTimeout`. -/
def rpcCall (st : ClientState) (marshaled method : Bytes)
    (so : SendOutcome) (wo : WaitOutcome) :
    Option (ClientState × (Option Bytes × Option RpcErr)) :=
  callCmdWithTimeoutFull st CmdRpcMethod (buildCallPayload marshaled method)
    so wo

/-- One sequential client operation that may allocate a correlation ID:
a plain `callCmd` registration, or a `callCmdWithTimeout` registration
with its send-select outcome. -/
inductive CallOp where
  | plain (cmd : Nat) (data : Bytes)
  | timed (cmd : Nat) (data : Bytes) (so : SendOutcome)
deriving DecidableEq, Repr

/-- Run one registration phase and report the correlation ID it
allocated, if any.  On the timed timeout arm the ID was consumed by
`atomic.AddInt64` even though no session was registered; by construction
it equals the updated `sendSeq`. -/
def stepOp (st : ClientState) : CallOp → ClientState × Option Int
  | .plain c d => callCmdRegister st c d
  | .timed c d so =>
    match callCmdWithTimeoutRegister st c d so with
    | (st1, .registered s) => (st1, some s)
    | (st1, .errTimeout) => (st1, some st1.sendSeq)
    | (st1, .errDisconnected) => (st1, none)

/-- The correlation IDs allocated, in order, by a sequential run of
registration phases. -/
def runAlloc (st : ClientState) : List CallOp → List Int
  | [] => []
  | op :: rest =>
    let p := stepOp st op
    (match p.2 with | some s => [s] | none => []) ++ runAlloc p.1 rest

/-- The primitive statements of `callCmd` / `callCmdWithTimeout` that the
lock-discipline claim talks about, in source order. -/
inductive GoAction where
  | lock
  | unlock
  | allocSeq
  | sendHandoff
  | registerSession
  | recvWait
  | removeSess
deriving DecidableEq, Repr

/-- Annotate each action of a trace with whether the client lock is held
while it executes (the `lock` action itself acquires, `unlock` releases). -/
def annotateLock : Bool → List GoAction → List (GoAction × Bool)
  | _, [] => []
  | held, a :: rest =>
    match a with
    | .lock => (GoAction.lock, true) :: annotateLock true rest
    | .unlock => (GoAction.unlock, false) :: annotateLock false rest
    | _ => (a, held) :: annotateLock held rest

/-- The statement trace of `callCmd` (lines 43-62): `Lock`; if running,
allocate, send on `chSend`, insert the session, `Unlock`, receive from
`session.done`, deferred `removeSession`; otherwise `Unlock` and return. -/
def callCmdActions (running : Bool) : List GoAction :=
  if running then
    [.lock, .allocSeq, .sendHandoff, .registerSession, .unlock,
     .recvWait, .removeSess]
  else [.lock, .unlock]

/-- The statement trace of `callCmdWithTimeout` (lines 68-98).  The
send-side `select` attempts the `chSend` hand-off while the lock is held
on both of its arms; on the timer arm the function unlocks and returns
before registering. -/
def callCmdWithTimeoutActions (running : Bool) (so : SendOutcome) :
    List GoAction :=
  if running then
    match so with
    | .accepted =>
        [.lock, .allocSeq, .sendHandoff, .registerSession, .unlock,
         .recvWait, .removeSess]
    | .timedOut => [.lock, .allocSeq, .sendHandoff, .unlock]
  else [.lock, .unlock]

/-! ### Helper lemmas -/

theorem not_mem_removeSession (st : ClientState) (seq : Int) :
    seq ∉ (removeSession st seq).sessionMap := by
  intro hmem
  unfold removeSession at hmem
  simp only at hmem
  split at hmem
  · simp at hmem
  · rw [List.mem_filter] at hmem
    simp at hmem

theorem removeSession_eq_self (st : ClientState) (seq : Int)
    (h : seq ∉ st.sessionMap) : removeSession st seq = st := by
  obtain ⟨r, s, m, ch, cs⟩ := st
  have hf : m.filter (fun k => k != seq) = m := by
    apply List.filter_eq_self.mpr
    intro a ha
    simp only [bne_iff_ne, ne_eq, decide_eq_true_eq]
    intro heq
    exact h (heq ▸ ha)
  unfold removeSession
  simp only [hf]
  split
  · rename_i hlen
    simp only [List.length_eq_zero.mp hlen]
  · rfl

theorem lookupChan_append (l1 l2 : List (Int × ChanState)) (k : Int) :
    lookupChan (l1 ++ l2) k =
      match lookupChan l1 k with
      | some c => some c
      | none => lookupChan l2 k := by
  induction l1 with
  | nil => simp [lookupChan]
  | cons e rest ih =>
    by_cases he : e.1 = k
    · simp [lookupChan, he]
    · simp [lookupChan, he, ih]

theorem lookupChan_setChan (l : List (Int × ChanState)) (k : Int)
    (c c0 : ChanState) (h : lookupChan l k = some c0) :
    lookupChan (setChan l k c) k = some c := by
  induction l with
  | nil => simp [lookupChan] at h
  | cons e rest ih =>
    by_cases he : e.1 = k
    · simp [lookupChan, setChan, he]
    · simp only [lookupChan, he, if_false] at h
      have hrest := ih h
      simp only [setChan, List.map_cons] at hrest ⊢
      simp [lookupChan, he, hrest]

theorem lookupChan_closeAll (l : List (Int × ChanState)) (sm : List Int)
    (k : Int) (c : ChanState) (hk : k ∈ sm) (hc : lookupChan l k = some c) :
    lookupChan
      (l.map (fun e => if e.1 ∈ sm then (e.1, closeChan e.2) else e)) k =
      some (closeChan c) := by
  induction l with
  | nil => simp [lookupChan] at hc
  | cons e rest ih =>
    by_cases he : e.1 = k
    · simp only [lookupChan, he, if_true] at hc
      simp only [List.map_cons]
      rw [he]
      simp [lookupChan, hk, Option.some_inj.mp hc]
    · simp only [lookupChan, he, if_false] at hc
      by_cases hm : e.1 ∈ sm <;>
        simp [lookupChan, hm, he, ih hc]

theorem set_last_of_append (l : List Nat) (a b : Nat) :
    (l ++ [a]).set l.length b = l ++ [b] := by
  induction l with
  | nil => rfl
  | cons x xs ih => simp [List.set, ih]

theorem wrap64_id (x : Int) (h1 : -(2 ^ 63) ≤ x) (h2 : x < 2 ^ 63) :
    wrap64 x = x := by
  unfold wrap64
  have e63 : (2 : Int) ^ 63 = 9223372036854775808 := by norm_num
  have e64 : (2 : Int) ^ 64 = 18446744073709551616 := by norm_num
  rw [e63] at h1 h2 ⊢
  rw [e64]
  rw [Int.emod_eq_of_lt (by omega) (by omega)]
  omega

theorem callCmdRegister_running (st : ClientState) (cmd : Nat) (data : Bytes)
    (h : st.running = true) :
    callCmdRegister st cmd data =
      ({ st with
          sendSeq := wrap64 (st.sendSeq + 1)
          chSend := st.chSend ++
            [NewRpcMessage cmd (wrap64 (st.sendSeq + 1)) data]
          sessionMap := st.sessionMap ++ [wrap64 (st.sendSeq + 1)]
          chans := st.chans ++ [(wrap64 (st.sendSeq + 1), .empty)] },
       some (wrap64 (st.sendSeq + 1))) := by
  simp [callCmdRegister, h]

theorem callCmdWithTimeoutRegister_accepted (st : ClientState) (cmd : Nat)
    (data : Bytes) (h : st.running = true) :
    callCmdWithTimeoutRegister st cmd data .accepted =
      ({ st with
          sendSeq := wrap64 (st.sendSeq + 1)
          chSend := st.chSend ++
            [NewRpcMessage cmd (wrap64 (st.sendSeq + 1)) data]
          sessionMap := st.sessionMap ++ [wrap64 (st.sendSeq + 1)]
          chans := st.chans ++ [(wrap64 (st.sendSeq + 1), .empty)] },
       .registered (wrap64 (st.sendSeq + 1))) := by
  simp [callCmdWithTimeoutRegister, h]

/-! ### Claim theorems -/

/-- Claim C3: a `callCmd` or `callCmdWithTimeout` invocation made while
the running flag is false fails immediately with
`ErrRpcClientIsDisconnected`, the client state is returned verbatim (so no
correlation ID is consumed, nothing reaches the send queue, and the
session table is untouched). -/
theorem call_not_running_fails_fast (st : ClientState) (cmd : Nat)
    (data : Bytes) (so : SendOutcome) (wo : WaitOutcome)
    (h : st.running = false) :
    callCmdRegister st cmd data = (st, none) ∧
    callCmdWithTimeoutRegister st cmd data so = (st, .errDisconnected) ∧
    callCmdFull st cmd data = some (st, (none, some .disconnected)) ∧
    callCmdWithTimeoutFull st cmd data so wo =
      some (st, (none, some .disconnected)) := by
  have hreg : callCmdRegister st cmd data = (st, none) := by
    simp [callCmdRegister, h]
  have hreg2 : callCmdWithTimeoutRegister st cmd data so =
      (st, .errDisconnected) := by
    simp [callCmdWithTimeoutRegister, h]
  refine ⟨hreg, hreg2, ?_, ?_⟩
  · unfold callCmdFull
    rw [hreg]
  · unfold callCmdWithTimeoutFull
    rw [hreg2]

/-- Witness for C3 at a concrete closed client. -/
theorem call_not_running_fails_fast_witness :
    callCmdRegister
        { running := false, sendSeq := 4, sessionMap := [2],
          chans := [(2, .empty)], chSend := [] } 7 [1, 2] =
      ({ running := false, sendSeq := 4, sessionMap := [2],
         chans := [(2, .empty)], chSend := [] }, none) ∧
    callCmdWithTimeoutRegister
        { running := false, sendSeq := 4, sessionMap := [2],
          chans := [(2, .empty)], chSend := [] } 7 [1, 2] .accepted =
      ({ running := false, sendSeq := 4, sessionMap := [2],
         chans := [(2, .empty)], chSend := [] }, .errDisconnected) ∧
    callCmdFull
        { running := false, sendSeq := 4, sessionMap := [2],
          chans := [(2, .empty)], chSend := [] } 7 [1, 2] =
      some ({ running := false, sendSeq := 4, sessionMap := [2],
              chans := [(2, .empty)], chSend := [] },
            (none, some .disconnected)) ∧
    callCmdWithTimeoutFull
        { running := false, sendSeq := 4, sessionMap := [2],
          chans := [(2, .empty)], chSend := [] } 7 [1, 2] .accepted .ready =
      some ({ running := false, sendSeq := 4, sessionMap := [2],
              chans := [(2, .empty)], chSend := [] },
            (none, some .disconnected)) :=
  call_not_running_fails_fast
    { running := false, sendSeq := 4, sessionMap := [2],
      chans := [(2, .empty)], chSend := [] } 7 [1, 2] .accepted .ready rfl

/-- Claim C4: when the send-side timeout of `callCmdWithTimeout` fires
before the hand-off to `chSend` completes, the call returns
`ErrRpcCallTimeout` and the session table, the channel heap and the send
queue are unchanged (only the already-incremented sequence counter
differs). -/
theorem timed_send_timeout_no_session (st : ClientState) (cmd : Nat)
    (data : Bytes) (wo : WaitOutcome) (h : st.running = true) :
    callCmdWithTimeoutRegister st cmd data .timedOut =
      ({ st with sendSeq := wrap64 (st.sendSeq + 1) }, .errTimeout) ∧
    callCmdWithTimeoutFull st cmd data .timedOut wo =
      some ({ st with sendSeq := wrap64 (st.sendSeq + 1) },
            (none, some .timeout)) ∧
    ({ st with sendSeq := wrap64 (st.sendSeq + 1) } :
        ClientState).sessionMap = st.sessionMap ∧
    ({ st with sendSeq := wrap64 (st.sendSeq + 1) } :
        ClientState).chSend = st.chSend := by
  have hreg : callCmdWithTimeoutRegister st cmd data .timedOut =
      ({ st with sendSeq := wrap64 (st.sendSeq + 1) }, .errTimeout) := by
    simp [callCmdWithTimeoutRegister, h]
  refine ⟨hreg, ?_, rfl, rfl⟩
  unfold callCmdWithTimeoutFull
  rw [hreg]

/-- Witness for C4 at a concrete running client. -/
theorem timed_send_timeout_no_session_witness :
    callCmdWithTimeoutRegister
        { running := true, sendSeq := 4, sessionMap := [2],
          chans := [(2, .empty)], chSend := [] } 7 [9] .timedOut =
      ({ running := true, sendSeq := 5, sessionMap := [2],
         chans := [(2, .empty)], chSend := [] }, .errTimeout) ∧
    callCmdWithTimeoutFull
        { running := true, sendSeq := 4, sessionMap := [2],
          chans := [(2, .empty)], chSend := [] } 7 [9] .timedOut .ready =
      some ({ running := true, sendSeq := 5, sessionMap := [2],
              chans := [(2, .empty)], chSend := [] },
            (none, some .timeout)) ∧
    ({ running := true, sendSeq := 4, sessionMap := [2],
       chans := [(2, .empty)], chSend := [] } :
        ClientState).sessionMap = [2] ∧
    ([] : List Frame) = [] := by
  have h := timed_send_timeout_no_session
    { running := true, sendSeq := 4, sessionMap := [2],
      chans := [(2, .empty)], chSend := [] } 7 [9] .ready rfl
  have hw : wrap64 (4 + 1) = 5 := by decide
  rw [hw] at h
  exact ⟨h.1, h.2.1, rfl, rfl⟩

/-- Claim C6: whatever environment state a call finds when its wait phase
completes — a delivered response, a remote error envelope, a closed
channel, or the wait-side timer — the returned state never contains the
call's session key: the deferred `removeSession` runs on every outcome. -/
theorem session_removed_on_every_outcome (st : ClientState) (seq : Int)
    (wo : WaitOutcome) (st2 : ClientState)
    (r : Option Bytes × Option RpcErr) :
    (callCmdAwait st seq = some (st2, r) → seq ∉ st2.sessionMap) ∧
    (callCmdWithTimeoutAwait st seq wo = some (st2, r) →
      seq ∉ st2.sessionMap) := by
  have hawait : callCmdAwait st seq = some (st2, r) → seq ∉ st2.sessionMap := by
    intro h
    unfold callCmdAwait at h
    split at h
    · exact absurd h (by simp)
    · split at h
      · exact absurd h (by simp)
      · rw [Option.some_inj, Prod.mk.injEq] at h
        rw [← h.1]
        exact not_mem_removeSession _ seq
      · rw [Option.some_inj, Prod.mk.injEq] at h
        rw [← h.1]
        exact not_mem_removeSession _ seq
  refine ⟨hawait, ?_⟩
  intro h
  cases wo with
  | ready => exact hawait h
  | timer =>
    unfold callCmdWithTimeoutAwait at h
    rw [Option.some_inj, Prod.mk.injEq] at h
    rw [← h.1]
    exact not_mem_removeSession _ seq

/-- Witness for C6: a concrete finishing call leaves no entry under its
key. -/
theorem session_removed_on_every_outcome_witness :
    (callCmdAwait
        { running := true, sendSeq := 3, sessionMap := [3],
          chans := [(3, .closed)], chSend := [] } 3 =
      some ({ running := true, sendSeq := 3, sessionMap := [],
              chans := [(3, .closed)], chSend := [] },
            ((none : Option Bytes), some RpcErr.disconnected)) →
      (3 : Int) ∉
        ({ running := true, sendSeq := 3, sessionMap := [],
           chans := [(3, .closed)], chSend := [] } :
            ClientState).sessionMap) ∧
    ((3 : Int) ∉
        ({ running := true, sendSeq := 3, sessionMap := [],
           chans := [(3, .closed)], chSend := [] } :
            ClientState).sessionMap) :=
  ⟨(session_removed_on_every_outcome
      { running := true, sendSeq := 3, sessionMap := [3],
        chans := [(3, .closed)], chSend := [] } 3 .ready
      { running := true, sendSeq := 3, sessionMap := [],
        chans := [(3, .closed)], chSend := [] }
      ((none : Option Bytes), some RpcErr.disconnected)).1,
   (session_removed_on_every_outcome
      { running := true, sendSeq := 3, sessionMap := [3],
        chans := [(3, .closed)], chSend := [] } 3 .ready
      { running := true, sendSeq := 3, sessionMap := [],
        chans := [(3, .closed)], chSend := [] }
      ((none : Option Bytes), some RpcErr.disconnected)).1 (by decide)⟩

/-- Claim C8: `removeSession` on an absent correlation ID returns the
state unchanged, and an inbound RPC reply (success or error code) whose
correlation ID is not in the session table leaves the whole client state
untouched — nothing is delivered and no other session is affected. -/
theorem remove_idempotent_and_unknown_reply_dropped (st : ClientState)
    (seq : Int) (msg : IMessage)
    (h1 : seq ∉ st.sessionMap) (h2 : msg.rpcSeq ∉ st.sessionMap)
    (h3 : msg.cmd = CmdRpcMethod ∨ msg.cmd = CmdRpcError) :
    removeSession st seq = st ∧
    removeSession (removeSession st seq) seq = removeSession st seq ∧
    handleOnMessage st msg = some st := by
  have hrem : removeSession st seq = st := removeSession_eq_self st seq h1
  refine ⟨hrem, by rw [hrem]; exact hrem, ?_⟩
  unfold handleOnMessage
  rcases h3 with h3 | h3 <;>
    simp [h3, CmdPing, CmdRpcMethod, CmdRpcError, h2]

/-- Witness for C8 at a concrete state and message. -/
theorem remove_idempotent_and_unknown_reply_dropped_witness :
    removeSession
        { running := true, sendSeq := 9, sessionMap := [4],
          chans := [(4, .empty)], chSend := [] } 7 =
      { running := true, sendSeq := 9, sessionMap := [4],
        chans := [(4, .empty)], chSend := [] } ∧
    removeSession
        (removeSession
          { running := true, sendSeq := 9, sessionMap := [4],
            chans := [(4, .empty)], chSend := [] } 7) 7 =
      removeSession
        { running := true, sendSeq := 9, sessionMap := [4],
          chans := [(4, .empty)], chSend := [] } 7 ∧
    handleOnMessage
        { running := true, sendSeq := 9, sessionMap := [4],
          chans := [(4, .empty)], chSend := [] }
        { cmd := 2, rpcSeq := 7, body := [1] } =
      some { running := true, sendSeq := 9, sessionMap := [4],
             chans := [(4, .empty)], chSend := [] } :=
  remove_idempotent_and_unknown_reply_dropped
    { running := true, sendSeq := 9, sessionMap := [4],
      chans := [(4, .empty)], chSend := [] } 7
    { cmd := 2, rpcSeq := 7, body := [1] }
    (by decide) (by decide) (Or.inr rfl)

/-- Counterexample to claim C9: in both `callCmd` and
`callCmdWithTimeout` the hand-off to `chSend` executes while the client
lock is held — including on the timed variant's timeout arm — so the
claim that the outbound hand-off is never performed under the lock is
false on the code. -/
theorem send_handoff_under_lock_counterexample :
    (GoAction.sendHandoff, true) ∈
      annotateLock false (callCmdActions true) ∧
    (GoAction.sendHandoff, true) ∈
      annotateLock false (callCmdWithTimeoutActions true .accepted) ∧
    (GoAction.sendHandoff, true) ∈
      annotateLock false (callCmdWithTimeoutActions true .timedOut) := by
  decide

/-- Claim C9 as amended: the wait on the result channel is never
performed while the lock is held, but the outbound send hand-off is
always performed while holding the lock, in both call variants. -/
theorem lock_discipline_amended (running : Bool) (so : SendOutcome) :
    ((GoAction.recvWait, true) ∉
      annotateLock false (callCmdActions running)) ∧
    ((GoAction.recvWait, true) ∉
      annotateLock false (callCmdWithTimeoutActions running so)) ∧
    ((GoAction.sendHandoff, false) ∉
      annotateLock false (callCmdActions running)) ∧
    ((GoAction.sendHandoff, false) ∉
      annotateLock false (callCmdWithTimeoutActions running so)) := by
  cases running <;> cases so <;> decide

theorem chanRecv_value (c : ChanState) (m : RpcMessage) (c2 : ChanState)
    (h : chanRecv c = some (some m, c2)) : c = .holding m := by
  cases c <;> simp [chanRecv] at h
  rw [h.1]

theorem timedAwait_shape (st1 : ClientState) (seq : Int) (wo : WaitOutcome)
    (st2 : ClientState) (r : Option Bytes × Option RpcErr)
    (h : callCmdWithTimeoutAwait st1 seq wo = some (st2, r)) :
    r = (none, some .disconnected) ∨ r = (none, some .timeout) ∨
      ∃ m : RpcMessage, lookupChan st1.chans seq = some (.holding m) ∧
        r = (some m.msg.body, m.err) := by
  cases wo with
  | timer =>
    replace h : (some (removeSession st1 seq,
        ((none : Option Bytes), some RpcErr.timeout)) :
        Option (ClientState × (Option Bytes × Option RpcErr))) =
        some (st2, r) := h
    rw [Option.some_inj, Prod.mk.injEq] at h
    exact Or.inr (Or.inl h.2.symm)
  | ready =>
    replace h : callCmdAwait st1 seq = some (st2, r) := h
    unfold callCmdAwait at h
    split at h
    · exact absurd h (by simp)
    · rename_i c heqc
      split at h
      · exact absurd h (by simp)
      · rw [Option.some_inj, Prod.mk.injEq] at h
        exact Or.inl h.2.symm
      · rename_i m c2 heqr
        rw [Option.some_inj, Prod.mk.injEq] at h
        refine Or.inr (Or.inr ⟨m, ?_, h.2.symm⟩)
        rw [heqc, chanRecv_value c m c2 heqr]

/-- Claim C10: `callCmdWithTimeout` always returns through one of exactly
three outcomes — the envelope delivered on the result channel,
`ErrRpcClientIsDisconnected` (failed running check or closed channel), or
`ErrRpcCallTimeout` (send or wait deadline) — and, provided no channel in
the client ever holds an `ErrRpcCallClientError` envelope (the router
never creates one), the fall-through `ErrRpcCallClientError` return is
never taken. -/
theorem timed_call_three_outcomes (st : ClientState) (cmd : Nat)
    (data : Bytes) (so : SendOutcome) (wo : WaitOutcome)
    (st2 : ClientState) (r : Option Bytes × Option RpcErr)
    (h : callCmdWithTimeoutFull st cmd data so wo = some (st2, r))
    (hch : ∀ k m, lookupChan st.chans k = some (.holding m) →
      m.err ≠ some RpcErr.clientError) :
    (r = (none, some .disconnected) ∨ r = (none, some .timeout) ∨
      ∃ m : RpcMessage, r = (some m.msg.body, m.err)) ∧
    r.2 ≠ some RpcErr.clientError := by
  by_cases hrun : st.running = true
  · cases so with
    | timedOut =>
      have hfull : callCmdWithTimeoutFull st cmd data .timedOut wo =
          some ({ st with sendSeq := wrap64 (st.sendSeq + 1) },
            ((none : Option Bytes), some RpcErr.timeout)) := by
        simp [callCmdWithTimeoutFull, callCmdWithTimeoutRegister, hrun]
      rw [hfull, Option.some_inj, Prod.mk.injEq] at h
      rw [← h.2]
      exact ⟨Or.inr (Or.inl rfl), by simp⟩
    | accepted =>
      have hfull : callCmdWithTimeoutFull st cmd data .accepted wo =
          callCmdWithTimeoutAwait
            { st with
                sendSeq := wrap64 (st.sendSeq + 1)
                chSend := st.chSend ++
                  [NewRpcMessage cmd (wrap64 (st.sendSeq + 1)) data]
                sessionMap := st.sessionMap ++ [wrap64 (st.sendSeq + 1)]
                chans := st.chans ++ [(wrap64 (st.sendSeq + 1), .empty)] }
            (wrap64 (st.sendSeq + 1)) wo := by
        simp [callCmdWithTimeoutFull, callCmdWithTimeoutRegister, hrun]
      rw [hfull] at h
      rcases timedAwait_shape _ _ _ _ _ h with h3 | h3 | ⟨m, hm, h3⟩
      · rw [h3]
        exact ⟨Or.inl rfl, by simp⟩
      · rw [h3]
        exact ⟨Or.inr (Or.inl rfl), by simp⟩
      · rw [h3]
        refine ⟨Or.inr (Or.inr ⟨m, rfl⟩), ?_⟩
        simp only [lookupChan_append] at hm
        cases hl : lookupChan st.chans (wrap64 (st.sendSeq + 1)) with
        | none =>
          rw [hl] at hm
          simp [lookupChan] at hm
        | some c =>
          rw [hl] at hm
          simp only [Option.some_inj] at hm
          exact hch _ m (by rw [hl, hm])
  · have hrun2 : st.running = false := by
      cases hb : st.running
      · rfl
      · exact absurd hb hrun
    have hfull : callCmdWithTimeoutFull st cmd data so wo =
        some (st, ((none : Option Bytes), some RpcErr.disconnected)) := by
      simp [callCmdWithTimeoutFull, callCmdWithTimeoutRegister, hrun2]
    rw [hfull, Option.some_inj, Prod.mk.injEq] at h
    rw [← h.2]
    exact ⟨Or.inl rfl, by simp⟩

/-- Witness for C10 at a concrete call whose send hand-off succeeds and
whose wait-side timer fires. -/
theorem timed_call_three_outcomes_witness :
    (((none : Option Bytes), some RpcErr.timeout) =
        ((none : Option Bytes), some RpcErr.disconnected) ∨
      ((none : Option Bytes), some RpcErr.timeout) =
        ((none : Option Bytes), some RpcErr.timeout) ∨
      ∃ m : RpcMessage,
        ((none : Option Bytes), some RpcErr.timeout) =
          (some m.msg.body, m.err)) ∧
    ((none : Option Bytes), some RpcErr.timeout).2 ≠
      some RpcErr.clientError :=
  timed_call_three_outcomes
    { running := true, sendSeq := 0, sessionMap := [], chans := [],
      chSend := [] } 7 [1] .accepted .timer
    { running := true, sendSeq := 1, sessionMap := [],
      chans := [(1, .empty)], chSend := [NewRpcMessage 7 1 [1]] }
    ((none : Option Bytes), some RpcErr.timeout)
    (by decide)
    (by intro k m hm; simp [lookupChan] at hm)

theorem callCmdAwait_holding (st : ClientState) (seq : Int) (m : RpcMessage)
    (h : lookupChan st.chans seq = some (.holding m)) :
    callCmdAwait st seq =
      some (removeSession { st with chans := setChan st.chans seq .empty } seq,
            (some m.msg.body, m.err)) := by
  unfold callCmdAwait
  rw [h]
  rfl

theorem callCmdAwait_closed (st : ClientState) (seq : Int)
    (h : lookupChan st.chans seq = some .closed) :
    callCmdAwait st seq =
      some (removeSession
              { st with chans := setChan st.chans seq .closed } seq,
            (none, some .disconnected)) := by
  unfold callCmdAwait
  rw [h]
  rfl

/-- Counterexample to claim C2: with session 5 pending, an inbound
`CmdRpcError` frame with body `boom` makes the router deliver an envelope
that carries the inbound message itself, and the waiting `callCmd` wait
phase returns the response body as its payload together with the remote
error — not a nil payload as the claim states. -/
theorem rpc_error_payload_counterexample :
    (handleOnMessage
        { running := true, sendSeq := 5, sessionMap := [5],
          chans := [(5, .empty)], chSend := [] }
        { cmd := 2, rpcSeq := 5, body := [98, 111, 111, 109] }).bind
      (fun st1 => callCmdAwait st1 5) =
      some ({ running := true, sendSeq := 5, sessionMap := [],
              chans := [(5, .empty)], chSend := [] },
            (some [98, 111, 111, 109],
             some (RpcErr.remote [98, 111, 111, 109]))) ∧
    (some [98, 111, 111, 109] : Option Bytes) ≠ none := by
  exact ⟨by decide, by simp⟩

/-- Claim C2 as amended: when an inbound frame carries `CmdRpcError` and
its correlation ID is in the session table (with its result channel still
free), the router delivers an envelope carrying the inbound message and
an error whose message is the response body, and the waiting
`callCmd`/`callCmdWithTimeout` returns that error together with the
response body as the payload (the typed wrappers discard the payload when
the error is non-nil). -/
theorem rpc_error_delivery_amended (st : ClientState) (msg : IMessage)
    (h1 : msg.cmd = CmdRpcError) (h2 : msg.rpcSeq ∈ st.sessionMap)
    (h3 : lookupChan st.chans msg.rpcSeq = some .empty) :
    ∃ st1, handleOnMessage st msg = some st1 ∧
      lookupChan st1.chans msg.rpcSeq =
        some (.holding { msg := msg, err := some (.remote msg.body) }) ∧
      ∃ st2, callCmdAwait st1 msg.rpcSeq =
        some (st2, (some msg.body, some (.remote msg.body))) := by
  have hro : handleOnMessage st msg =
      deliverToSession st msg.rpcSeq
        { msg := msg, err := some (.remote msg.body) } := by
    unfold handleOnMessage
    rw [h1]
    simp [CmdPing, CmdRpcMethod, CmdRpcError, h2]
  have hdel : deliverToSession st msg.rpcSeq
      { msg := msg, err := some (.remote msg.body) } =
      some { st with
              chans := setChan st.chans msg.rpcSeq
                (.holding { msg := msg, err := some (.remote msg.body) }) } := by
    unfold deliverToSession
    rw [h3]
    rfl
  have hl := lookupChan_setChan st.chans msg.rpcSeq
    (.holding { msg := msg, err := some (.remote msg.body) }) _ h3
  refine ⟨{ st with
            chans := setChan st.chans msg.rpcSeq
              (.holding { msg := msg, err := some (.remote msg.body) }) },
    by rw [hro, hdel], hl, ⟨_, callCmdAwait_holding _ msg.rpcSeq _ hl⟩⟩

/-- Witness for the amended C2 at a concrete pending session. -/
theorem rpc_error_delivery_amended_witness :
    ∃ st1, handleOnMessage
        { running := true, sendSeq := 5, sessionMap := [5],
          chans := [(5, .empty)], chSend := [] }
        { cmd := 2, rpcSeq := 5, body := [7] } = some st1 ∧
      lookupChan st1.chans 5 =
        some (.holding { msg := { cmd := 2, rpcSeq := 5, body := [7] },
                         err := some (.remote [7]) }) ∧
      ∃ st2, callCmdAwait st1 5 =
        some (st2, (some [7], some (.remote [7]))) :=
  rpc_error_delivery_amended
    { running := true, sendSeq := 5, sessionMap := [5],
      chans := [(5, .empty)], chSend := [] }
    { cmd := 2, rpcSeq := 5, body := [7] } rfl (by decide) rfl

/-- Claim C7 (the running-flag reset is modelled from the spec, since it
lives in the `TcpClient` close path outside src/): when the close
callback runs, the running flag is false, the session table is emptied,
and the result channel of every pending session on which a caller is
still blocked (channel empty — no reply was delivered before close) is
closed without a value ever being sent on it; such a call's wait then
returns `ErrRpcClientIsDisconnected`, once, by its single receive.  (A
pending session whose reply was already buffered is not a blocked
waiter: Go's `close` preserves the buffered envelope and that caller
receives the value, which `closeChan` models by keeping the envelope.) -/
theorem close_disconnects_all_waiters (st : ClientState) (k : Int)
    (hk : k ∈ st.sessionMap)
    (hc : lookupChan st.chans k = some .empty) :
    (onCloseHandler st).running = false ∧
    (onCloseHandler st).sessionMap = [] ∧
    lookupChan (onCloseHandler st).chans k = some .closed ∧
    (∀ m : RpcMessage,
      lookupChan (onCloseHandler st).chans k ≠ some (.holding m)) ∧
    ∃ st2, callCmdAwait (onCloseHandler st) k =
      some (st2, (none, some .disconnected)) := by
  have hcl : lookupChan (onCloseHandler st).chans k = some .closed :=
    lookupChan_closeAll st.chans st.sessionMap k .empty hk hc
  refine ⟨rfl, rfl, hcl, ?_, ⟨_, callCmdAwait_closed _ k hcl⟩⟩
  intro m hm
  rw [hcl] at hm
  simp at hm

/-- Witness for C7 at a concrete client with one pending session. -/
theorem close_disconnects_all_waiters_witness :
    (onCloseHandler
        { running := true, sendSeq := 1, sessionMap := [1],
          chans := [(1, .empty)], chSend := [] }).running = false ∧
    (onCloseHandler
        { running := true, sendSeq := 1, sessionMap := [1],
          chans := [(1, .empty)], chSend := [] }).sessionMap = [] ∧
    lookupChan (onCloseHandler
        { running := true, sendSeq := 1, sessionMap := [1],
          chans := [(1, .empty)], chSend := [] }).chans 1 = some .closed ∧
    (∀ m : RpcMessage,
      lookupChan (onCloseHandler
          { running := true, sendSeq := 1, sessionMap := [1],
            chans := [(1, .empty)], chSend := [] }).chans 1 ≠
        some (.holding m)) ∧
    ∃ st2, callCmdAwait (onCloseHandler
        { running := true, sendSeq := 1, sessionMap := [1],
          chans := [(1, .empty)], chSend := [] }) 1 =
      some (st2, (none, some .disconnected)) :=
  close_disconnects_all_waiters
    { running := true, sendSeq := 1, sessionMap := [1],
      chans := [(1, .empty)], chSend := [] } 1 (by decide) rfl

theorem buildCallPayload_eq (data method : Bytes) :
    buildCallPayload data method =
      data ++ method ++ [method.length % 256] := by
  have hoff : (data ++ List.replicate (method.length + 1) 0).length
      - method.length - 1 = data.length := by
    simp only [List.length_append, List.length_replicate]
    omega
  have h1 : (data ++ List.replicate (method.length + 1) 0).take
      ((data ++ List.replicate (method.length + 1) 0).length
        - method.length - 1) = data := by
    rw [hoff, List.take_left]
  have h2 : (data ++ List.replicate (method.length + 1) 0).drop
      ((data ++ List.replicate (method.length + 1) 0).length
        - method.length - 1) = List.replicate (method.length + 1) 0 := by
    rw [hoff, List.drop_left]
  have h3 : listCopy (List.replicate (method.length + 1) 0) method
      = method ++ [0] := by
    unfold listCopy
    rw [List.length_replicate,
      List.take_of_length_le (Nat.le_succ method.length),
      List.drop_replicate,
      show method.length + 1 - method.length = 1 from by omega,
      List.replicate_one]
  simp only [buildCallPayload]
  rw [h1, h2, h3, ← List.append_assoc]
  have h4 : ((data ++ method) ++ [0]).length - 1 = (data ++ method).length :=
    by simp
  rw [h4, set_last_of_append, List.append_assoc]

/-- Claim C5: `Call` builds the outbound payload as the marshaled request
followed by the method-name bytes followed by one trailing byte holding
the name's length (the single byte caps representable method names at
255 bytes), and dispatches it under the reserved `CmdRpcMethod` code, the
frame handed to `chSend` carrying exactly that payload. -/
theorem call_method_payload_encoding (st : ClientState)
    (data method : Bytes) (so : SendOutcome) (wo : WaitOutcome)
    (hlen : method.length ≤ 255) (hrun : st.running = true) :
    buildCallPayload data method = data ++ method ++ [method.length] ∧
    rpcCall st data method so wo =
      callCmdWithTimeoutFull st CmdRpcMethod
        (data ++ method ++ [method.length]) so wo ∧
    (callCmdWithTimeoutRegister st CmdRpcMethod
        (buildCallPayload data method) .accepted).1.chSend =
      st.chSend ++ [NewRpcMessage CmdRpcMethod (wrap64 (st.sendSeq + 1))
        (data ++ method ++ [method.length])] := by
  have hb : buildCallPayload data method =
      data ++ method ++ [method.length] := by
    rw [buildCallPayload_eq, Nat.mod_eq_of_lt (by omega)]
  refine ⟨hb, ?_, ?_⟩
  · unfold rpcCall
    rw [hb]
  · rw [callCmdWithTimeoutRegister_accepted st _ _ hrun, hb]

/-- Witness for C5: the named-method call `Echo` on marshaled request
bytes `[1, 2]`. -/
theorem call_method_payload_encoding_witness :
    buildCallPayload [1, 2] [69, 99, 104, 111] =
      [1, 2] ++ [69, 99, 104, 111] ++ [4] ∧
    rpcCall
        { running := true, sendSeq := 0, sessionMap := [], chans := [],
          chSend := [] } [1, 2] [69, 99, 104, 111] .accepted .timer =
      callCmdWithTimeoutFull
        { running := true, sendSeq := 0, sessionMap := [], chans := [],
          chSend := [] } CmdRpcMethod
        ([1, 2] ++ [69, 99, 104, 111] ++ [4]) .accepted .timer ∧
    (callCmdWithTimeoutRegister
        { running := true, sendSeq := 0, sessionMap := [], chans := [],
          chSend := [] } CmdRpcMethod
        (buildCallPayload [1, 2] [69, 99, 104, 111]) .accepted).1.chSend =
      [] ++ [NewRpcMessage CmdRpcMethod (wrap64 (0 + 1))
        ([1, 2] ++ [69, 99, 104, 111] ++ [4])] :=
  call_method_payload_encoding
    { running := true, sendSeq := 0, sessionMap := [], chans := [],
      chSend := [] } [1, 2] [69, 99, 104, 111] .accepted .timer
    (by decide) rfl

theorem stepOp_char (st : ClientState) (op : CallOp)
    (h : st.running = true) :
    (stepOp st op).1.running = true ∧
    (stepOp st op).1.sendSeq = wrap64 (st.sendSeq + 1) ∧
    (stepOp st op).2 = some (wrap64 (st.sendSeq + 1)) := by
  cases op with
  | plain c d => simp [stepOp, callCmdRegister, h]
  | timed c d so =>
    cases so <;> simp [stepOp, callCmdWithTimeoutRegister, h]

theorem runAlloc_bounds (ops : List CallOp) (st : ClientState)
    (h : st.running = true) (h1 : -(2 ^ 63) ≤ st.sendSeq)
    (h2 : st.sendSeq + ops.length < 2 ^ 63) :
    List.Pairwise (fun a b => a < b) (runAlloc st ops) ∧
    ∀ x ∈ runAlloc st ops,
      st.sendSeq < x ∧ x ≤ st.sendSeq + ops.length := by
  induction ops generalizing st with
  | nil => simp [runAlloc]
  | cons op rest ih =>
    have e63 : (2 : Int) ^ 63 = 9223372036854775808 := by norm_num
    rw [e63] at h1 h2
    simp only [List.length_cons] at h2
    push_cast at h2
    obtain ⟨hr1, hr2, hr3⟩ := stepOp_char st op h
    have hw : wrap64 (st.sendSeq + 1) = st.sendSeq + 1 := by
      apply wrap64_id <;> rw [e63] <;> omega
    have hb1 : -(2 : Int) ^ 63 ≤ (stepOp st op).1.sendSeq := by
      rw [hr2, hw, e63]
      omega
    have hb2 : (stepOp st op).1.sendSeq + rest.length < 2 ^ 63 := by
      rw [hr2, hw, e63]
      omega
    have ihall := ih (stepOp st op).1 hr1 hb1 hb2
    rw [hr2, hw] at ihall
    have hrw : runAlloc st (op :: rest) =
        (st.sendSeq + 1) :: runAlloc (stepOp st op).1 rest := by
      simp only [runAlloc]
      rw [hr3, hw]
      rfl
    constructor
    · rw [hrw]
      refine List.Pairwise.cons ?_ ihall.1
      intro x hx
      exact (ihall.2 x hx).1
    · intro x hx
      rw [hrw] at hx
      simp only [List.length_cons]
      push_cast
      rcases List.mem_cons.mp hx with hx | hx
      · rw [hx]
        constructor <;> omega
      · have hlo := (ihall.2 x hx).1
        have hhi := (ihall.2 x hx).2
        constructor <;> omega

/-- Claim C1: across any sequential run of `callCmd` /
`callCmdWithTimeout` registration phases on a running client, every
allocation (including those consumed on the timed variant's send-timeout
arm) yields a correlation ID strictly greater than every previously
allocated ID, so no ID is ever observed twice or reused — provided the
int64 counter does not overflow during the run. -/
theorem rpc_seq_strictly_increasing (st : ClientState) (ops : List CallOp)
    (h : st.running = true) (h1 : -(2 ^ 63) ≤ st.sendSeq)
    (h2 : st.sendSeq + ops.length < 2 ^ 63) :
    List.Pairwise (fun a b => a < b) (runAlloc st ops) ∧
    (runAlloc st ops).Nodup := by
  have hp := (runAlloc_bounds ops st h h1 h2).1
  exact ⟨hp, hp.imp (fun hab => ne_of_lt hab)⟩

/-- Witness for C1: three allocations from a fresh client yield strictly
increasing, duplicate-free IDs. -/
theorem rpc_seq_strictly_increasing_witness :
    List.Pairwise (fun a b => a < b)
      (runAlloc
        { running := true, sendSeq := 0, sessionMap := [], chans := [],
          chSend := [] }
        [CallOp.plain 7 [1], CallOp.timed 8 [2] .timedOut,
         CallOp.timed 9 [3] .accepted]) ∧
    (runAlloc
        { running := true, sendSeq := 0, sessionMap := [], chans := [],
          chSend := [] }
        [CallOp.plain 7 [1], CallOp.timed 8 [2] .timedOut,
         CallOp.timed 9 [3] .accepted]).Nodup :=
  rpc_seq_strictly_increasing
    { running := true, sendSeq := 0, sessionMap := [], chans := [],
      chSend := [] }
    [CallOp.plain 7 [1], CallOp.timed 8 [2] .timedOut,
     CallOp.timed 9 [3] .accepted]
    rfl (by norm_num) (by norm_num)

end Kiss
